import Mathlib

/-!
Verification development for the G5 spaced-repetition schedule generator.

The program (Python) computes, from a start date and a count of learning
sets, a learning date plus four review dates per set, groups all events by
calendar date, renders a table, persists a JSON dictionary and optionally
exports an iCalendar file.

Shallow embedding conventions:
- A Python `datetime` is modelled as `DateTime`: an integer calendar day
  (days since an arbitrary epoch) plus a sub-day component in seconds.
  `timedelta(days = k)` addition adds `k` to the day and keeps the seconds.
  `strftime("%Y-%m-%d")` keeps only the day (formatting a calendar day is
  injective over the representable range, so the formatted string is
  modelled by the day number itself); `strptime(_, "%Y-%m-%d")` produces a
  `DateTime` with seconds 0.  `(a - b).days` is the floor of the difference
  in seconds divided by 86400, exactly as for Python `timedelta.days`.
- Python dicts are modelled as insertion-ordered association lists:
  updating an existing key rewrites it in place, a new key is appended.
- `f"... :02d"` zero padding is `pad2`.
- Python `sub in s` substring tests are `strContains`.
-/

namespace G5

/-- A Python `datetime`: calendar day plus sub-day seconds. -/
structure DateTime where
  day : Int
  sec : Nat
  deriving DecidableEq, Repr

/-- Adding `timedelta(days = k)` keeps the time-of-day part. -/
def DateTime.addDays (d : DateTime) (k : Int) : DateTime :=
  ⟨d.day + k, d.sec⟩

/-- Total seconds of a `DateTime` relative to the epoch. -/
def DateTime.totalSec (d : DateTime) : Int :=
  d.day * 86400 + (d.sec : Int)

/-- Python `(a - b).days`: the floor of the difference in days
(`timedelta` normalizes with floor division by 86400 seconds). -/
def daysBetween (a b : DateTime) : Int :=
  (a.totalSec - b.totalSec).fdiv 86400

/-- Python `f"{n:02d}"`: zero-pad to width 2 (only single nonnegative
digits actually gain a pad; all other integers print at natural width). -/
def pad2 (n : Int) : String :=
  if 0 ≤ n ∧ n < 10 then "0" ++ toString n else toString n

/-- Helper for `strContains`: Python `sub in s` on character lists. -/
def listContains (sub : List Char) : List Char → Bool
  | [] => sub.isEmpty
  | c :: rest => sub.isPrefixOf (c :: rest) || listContains sub rest

/-- Python substring test `sub in s`. -/
def strContains (s sub : String) : Bool :=
  listContains sub.toList s.toList

/-- Kind of a schedule event: the dicts produced by `get_learning_event`
carry `action_type = "learn"`, those of `get_review_events` carry
`action_type = "review"` plus a `review_number`. -/
inductive EventKind where
  | learn
  | review (n : Nat)
  deriving DecidableEq, Repr

/-- An event dict `{date, action_type, set_name[, review_number]}`. -/
structure Event where
  date : DateTime
  set_name : String
  kind : EventKind
  deriving DecidableEq, Repr

/-- A learning set (`class Set` in `g5/models/set.py`): a name and the
datetime at which it is learned. -/
structure Set where
  name : String
  learn_date : DateTime
  deriving DecidableEq, Repr

/-- `self.review_days = [2, 4, 8, 15]` — days when reviews happen
(day 1 is learning). -/
def review_days : List Nat := [2, 4, 8, 15]

/-- `Set.get_learning_event`. -/
def Set.get_learning_event (s : Set) : Event :=
  ⟨s.learn_date, s.name, .learn⟩

/-- `Set.get_review_events`: for `i, days_offset in enumerate(review_days)`,
an event at `learn_date + (days_offset - 1)` days with number `i + 1`. -/
def Set.get_review_events (s : Set) : List Event :=
  review_days.enum.map fun p =>
    ⟨s.learn_date.addDays ((p.2 : Int) - 1), s.name, .review (p.1 + 1)⟩

/-- `Set.get_all_events`: the learning event followed by the reviews. -/
def Set.get_all_events (s : Set) : List Event :=
  s.get_learning_event :: s.get_review_events

/-- The dictionary written by `Set.to_dict` (dates already formatted with
`"%Y-%m-%d"`, hence reduced to calendar days). -/
structure SetDict where
  set : String
  learned_on : Int
  review_dates : List Int
  deriving DecidableEq, Repr

/-- `Set.to_dict`. -/
def Set.to_dict (s : Set) : SetDict :=
  ⟨s.name, s.learn_date.day,
    review_days.map fun d => (s.learn_date.addDays ((d : Int) - 1)).day⟩

/-- `Set.from_dict`: `strptime(data["learned_on"], "%Y-%m-%d")` yields a
datetime at midnight of that day. -/
def Set.from_dict (d : SetDict) : Set :=
  ⟨d.set, ⟨d.learned_on, 0⟩⟩

/-- The value stored under one date key of `events_by_date`:
`{"New Words": None, "Reviews": []}` initially. -/
structure DateEntry where
  newWords : Option String
  reviews : List String
  deriving DecidableEq, Repr

/-- The fresh entry `{"New Words": None, "Reviews": []}`. -/
def DateEntry.empty : DateEntry := ⟨none, []⟩

/-- The review label `f"{set_name} (R{review_number})"`. -/
def reviewText (name : String) (n : Nat) : String :=
  name ++ " (R" ++ toString n ++ ")"

/-- Processing one event into a date entry: a learning event overwrites
the `"New Words"` slot, a review appends its label to `"Reviews"`. -/
def applyEvent (e : Event) (en : DateEntry) : DateEntry :=
  match e.kind with
  | .learn => { en with newWords := some e.set_name }
  | .review n => { en with reviews := en.reviews ++ [reviewText e.set_name n] }

/-- Insertion-ordered dict update: rewrite the entry of an existing key in
place, append a fresh entry (transformed from `DateEntry.empty`) for a new
key — exactly Python dict semantics for
`if date_str not in events_by_date: ... ; events_by_date[date_str][...] = ...`. -/
def upsert (d : Int) (f : DateEntry → DateEntry) :
    List (Int × DateEntry) → List (Int × DateEntry)
  | [] => [(d, f DateEntry.empty)]
  | (k, v) :: rest =>
      if k = d then (k, f v) :: rest else (k, v) :: upsert d f rest

/-- Dict lookup on the association-list model. -/
def lookupA (d : Int) : List (Int × DateEntry) → Option DateEntry
  | [] => none
  | (k, v) :: rest => if k = d then some v else lookupA d rest

/-- One step of the `get_events_by_date` loop body: the event's date is
keyed by its `"%Y-%m-%d"` string, i.e. its calendar day. -/
def ebdStep (acc : List (Int × DateEntry)) (e : Event) : List (Int × DateEntry) :=
  upsert e.date.day (applyEvent e) acc

/-- A schedule (`class G5Schedule`): start datetime plus the ordered list
of sets. -/
structure G5Schedule where
  start_date : DateTime
  sets : List Set
  deriving DecidableEq, Repr

/-- `G5Schedule.add_new_sets`: `for i in range(new_sets_count)` append
`Set(f"Set {starting_set_number + i:02d}", start_date + timedelta(days=i))`.
Python `range` of a non-positive count is empty, hence `toNat`. -/
def G5Schedule.add_new_sets (s : G5Schedule) (new_sets_count : Int)
    (starting_set_number : Int := 1) : G5Schedule :=
  { s with
    sets := s.sets ++ (List.range new_sets_count.toNat).map fun i =>
      ⟨"Set " ++ pad2 (starting_set_number + (i : Int)),
        s.start_date.addDays (i : Int)⟩ }

/-- All events of all sets in processing order (the nested loop of
`get_events_by_date`). -/
def G5Schedule.allEvents (s : G5Schedule) : List Event :=
  s.sets.flatMap Set.get_all_events

/-- `G5Schedule.get_events_by_date`: fold every event of every set into
the insertion-ordered dict. -/
def G5Schedule.get_events_by_date (s : G5Schedule) : List (Int × DateEntry) :=
  s.allEvents.foldl ebdStep []

/-- A flat activity record `{"Date": ..., "Action": ...}` (date already
`"%Y-%m-%d"`-formatted, hence a calendar day). -/
structure Activity where
  date : Int
  action : String
  deriving DecidableEq, Repr

/-- `G5Schedule.get_activity_list`: per set, the learning activity
`"Learn {name}"` followed by the review activities
`"Review {name} (R{k})"`. -/
def G5Schedule.get_activity_list (s : G5Schedule) : List Activity :=
  s.sets.flatMap fun st =>
    ⟨st.get_learning_event.date.day, "Learn " ++ st.get_learning_event.set_name⟩ ::
      st.get_review_events.map fun r =>
        ⟨r.date.day,
          "Review " ++ (match r.kind with
            | .review n => reviewText r.set_name n
            | .learn => r.set_name)⟩

/-- One display row of `to_dataframe`.  The printed date label
`f"{date.strftime('%b %d')} (D{day_number})"` is determined by the
calendar day and the day number, which are kept as separate fields. -/
structure Row where
  date : Int
  dayNumber : Int
  newWords : String
  reviews : String
  deriving DecidableEq, Repr

/-- The `"New Words"` cell: Python
`activities["New Words"] if activities["New Words"] else "-"` — both
`None` and the empty string are falsy. -/
def newWordsCell (o : Option String) : String :=
  match o with
  | none => "-"
  | some n => if n = "" then "-" else n

/-- The `"Reviews"` cell: `", ".join(...) if activities["Reviews"] else "-"`. -/
def reviewsCell (rs : List String) : String :=
  match rs with
  | [] => "-"
  | r :: rest => rest.foldl (fun acc x => acc ++ ", " ++ x) r

/-- Stable insertion into a key-sorted association list. -/
def insertByKey (p : Int × DateEntry) :
    List (Int × DateEntry) → List (Int × DateEntry)
  | [] => [p]
  | q :: rest =>
      if p.1 ≤ q.1 then p :: q :: rest else q :: insertByKey p rest

/-- Python `sorted(events_by_date.items())`: the `"%Y-%m-%d"` string keys
sort lexicographically, which is chronological order of the calendar days
they format; keys are distinct, so sorting by the day number alone is the
same order. -/
def sortByKey (l : List (Int × DateEntry)) : List (Int × DateEntry) :=
  l.foldr insertByKey []

/-- `G5Schedule.to_dataframe`: one row per date of the sorted dict, with
`day_number = (date - start_date).days + 1 + day_offset`, where the date
re-parsed from its `"%Y-%m-%d"` key is midnight of that day. -/
def G5Schedule.to_dataframe (s : G5Schedule) (day_offset : Int := 0) :
    List Row :=
  (sortByKey s.get_events_by_date).map fun p =>
    ⟨p.1, daysBetween ⟨p.1, 0⟩ s.start_date + 1 + day_offset,
      newWordsCell p.2.newWords, reviewsCell p.2.reviews⟩

/-- The dictionary written by `G5Schedule.to_dict` / `save_to_json`. -/
structure ScheduleDict where
  sets : List SetDict
  start_date : Int
  full_schedule : List Activity
  deriving DecidableEq, Repr

/-- `G5Schedule.to_dict`. -/
def G5Schedule.to_dict (s : G5Schedule) : ScheduleDict :=
  ⟨s.sets.map Set.to_dict, s.start_date.day, s.get_activity_list⟩

/-- One calendar event produced by `export_to_ical`, as the record of the
`event.add` calls while building it.  `icalendar`'s `Component.add`
appends: adding `summary` a second time yields a second `SUMMARY`
property, so the summaries form a list in add order.  `uuid.uuid4()` is
modelled as drawing the next value from a fresh-identifier counter. -/
structure ICalEvent where
  summaries : List String
  dtstart : Int
  dtend : Int
  colors : List String
  description : String
  uid : Nat
  deriving DecidableEq, Repr

/-- Building one event of `export_to_ical` from one activity: plain
summary, all-day span, then the `if/elif` chain on substrings of the
action adding an emoji-prefixed summary and a colour, then description
and a fresh uid. -/
def buildEvent (a : Activity) (uid : Nat) : ICalEvent :=
  let e : ICalEvent :=
    ⟨[a.action], a.date, a.date + 1, [],
      "G5 Spaced Repetition - " ++ a.action, uid⟩
  if strContains a.action "Learn" then
    { e with summaries := e.summaries ++ ["📚 " ++ a.action],
             colors := e.colors ++ ["9"] }
  else if strContains a.action "(R1)" then
    { e with summaries := e.summaries ++ ["🔍 " ++ a.action],
             colors := e.colors ++ ["5"] }
  else if strContains a.action "(R2)" then
    { e with summaries := e.summaries ++ ["🔄 " ++ a.action],
             colors := e.colors ++ ["5"] }
  else if strContains a.action "(R3)" then
    { e with summaries := e.summaries ++ ["📝 " ++ a.action],
             colors := e.colors ++ ["7"] }
  else if strContains a.action "(R4)" then
    { e with summaries := e.summaries ++ ["✅ " ++ a.action],
             colors := e.colors ++ ["11"] }
  else e

/-- The event list of the calendar built by `export_to_ical`: one event
per activity, in activity order, with the `n`-th event receiving the
`n`-th fresh identifier. -/
def exportEvents (acts : List Activity) : List ICalEvent :=
  acts.enum.map fun p => buildEvent p.2 p.1

/-- Failure cases of `export_to_ical`, the exceptions its `try` block
catches: `ImportError` when the `icalendar` package is missing, any other
exception (in practice the file write) otherwise. -/
inductive ExportErr where
  | importError
  | ioError
  deriving DecidableEq, Repr

/-- The fallible body of `export_to_ical`, environment made explicit:
whether `from icalendar import ...` succeeds and whether the file write
succeeds.  On success the calendar's event list is written. -/
def exportBody (libAvailable writeOk : Bool) (acts : List Activity) :
    Except ExportErr (List ICalEvent) :=
  if !libAvailable then .error .importError
  else
    let evs := exportEvents acts
    if !writeOk then .error .ioError
    else .ok evs

/-- `export_to_ical`: the `try/except` turns both failure cases into a
printed message and `False`; it returns `True` exactly on success,
never re-raising.  The second component is the written file content
(`none` when nothing was written). -/
def export_to_ical (libAvailable writeOk : Bool) (acts : List Activity) :
    Bool × Option (List ICalEvent) :=
  match exportBody libAvailable writeOk acts with
  | .ok evs => (true, some evs)
  | .error _ => (false, none)

/-- Folding a list of events into one date entry (the effect of the
`get_events_by_date` loop restricted to a single date key). -/
def applyAll (es : List Event) (en : DateEntry) : DateEntry :=
  es.foldl (fun a e => applyEvent e a) en

/-- The entry found under a key after processing `es`, given the entry
`o` found there before: an existing entry is updated through every event,
a missing one is created fresh only when some event hits the key. -/
def mergeOpt (o : Option DateEntry) (es : List Event) : Option DateEntry :=
  match o with
  | some en => some (applyAll es en)
  | none => if es.isEmpty then none else some (applyAll es DateEntry.empty)

/-- The set name carried by a learning event. -/
def learnName (e : Event) : Option String :=
  match e.kind with
  | .learn => some e.set_name
  | .review _ => none

/-- The review label carried by a review event. -/
def revLabel (e : Event) : Option String :=
  match e.kind with
  | .learn => none
  | .review n => some (reviewText e.set_name n)

/-- The last element of `l` if any, else `o`: the value of a
last-write-wins slot after writes `l` on initial value `o`. -/
def lastOr (l : List String) (o : Option String) : Option String :=
  match l.getLast? with
  | some nm => some nm
  | none => o

/-- All review labels falling on calendar day `d`, in set-processing
order and, within a set, in offset order R1..R4. -/
def reviewLabelsOn (s : G5Schedule) (d : Int) : List String :=
  s.sets.flatMap fun st =>
    (st.get_review_events.filter (fun e => e.date.day == d)).filterMap revLabel

/-- The five category glyphs of the calendar exporter. -/
def glyphs : List String := ["📚", "🔍", "🔄", "📝", "✅"]

/-- Error kinds of `generate_g5_schedule` (the `ValueError`s raised by
its validation and the `strptime` failure). -/
inductive GenError where
  | invalidDateFormat
  | invalidCount
  | invalidSetNumber
  deriving DecidableEq, Repr

/-- The output files a run can touch: the JSON data file and the
iCalendar file. -/
structure FS where
  json : Option ScheduleDict
  ics : Option (List ICalEvent)
  deriving DecidableEq, Repr

/-- `generate_g5_schedule` from `g5/cli.py`, with the outside world made
explicit: `parsed` is the result of `strptime(start_date_str, "%d-%m-%Y")`
(`none` when the date string does not parse) and `fs` the state of the
output files.  Steps in source order: parse the date, validate
`new_sets > 0`, validate `set_number ≥ 1`, build the schedule, add the
sets, save the JSON, then render with `day_offset = set_number - 1`.
Calendar export is not part of this function (it happens later in `main`,
only after this function returns successfully). -/
def generate_g5_schedule (fs : FS) (parsed : Option DateTime)
    (new_sets : Int) (set_number : Int := 1) :
    FS × Except GenError (List Row × G5Schedule) :=
  match parsed with
  | none => (fs, .error .invalidDateFormat)
  | some given_date =>
    if new_sets ≤ 0 then (fs, .error .invalidCount)
    else if set_number < 1 then (fs, .error .invalidSetNumber)
    else
      let schedule := (G5Schedule.mk given_date []).add_new_sets new_sets set_number
      let fs' : FS := { fs with json := some schedule.to_dict }
      let day_offset := set_number - 1
      (fs', .ok (schedule.to_dataframe day_offset, schedule))

/-- A concrete two-set schedule used to instantiate universally
quantified theorems: start at day 0, two sets numbered from 1. -/
def exSched : G5Schedule := (G5Schedule.mk ⟨0, 0⟩ []).add_new_sets 2 1

/-!
Helper lemmas about the association-list dict and the event fold.
-/

theorem lookupA_upsert (l : List (Int × DateEntry)) (k d : Int)
    (f : DateEntry → DateEntry) :
    lookupA d (upsert k f l) =
      if k = d then some (f ((lookupA d l).getD DateEntry.empty))
      else lookupA d l := by
  induction l with
  | nil =>
    by_cases h : k = d <;> simp [upsert, lookupA, h]
  | cons p rest ih =>
    obtain ⟨k', v⟩ := p
    by_cases h1 : k' = k
    · subst h1
      by_cases h2 : k' = d <;> simp [upsert, lookupA, h2, ih]
    · by_cases h2 : k' = d
      · subst h2
        simp [upsert, lookupA, h1, Ne.symm h1, ih]
      · simp [upsert, lookupA, h1, h2, ih]

theorem lookupA_foldl (evts : List Event) (acc : List (Int × DateEntry))
    (d : Int) :
    lookupA d (evts.foldl ebdStep acc) =
      mergeOpt (lookupA d acc) (evts.filter (fun e => e.date.day == d)) := by
  induction evts generalizing acc with
  | nil =>
    cases h : lookupA d acc <;> simp [mergeOpt, applyAll, h]
  | cons e rest ih =>
    rw [List.foldl_cons, ih]
    by_cases h : e.date.day = d
    · rw [show ebdStep acc e = upsert e.date.day (applyEvent e) acc from rfl,
        lookupA_upsert, if_pos h]
      rw [List.filter_cons_of_pos (by simpa using h)]
      cases ho : lookupA d acc <;>
        simp [mergeOpt, applyAll, ho, List.foldl_cons]
    · rw [show ebdStep acc e = upsert e.date.day (applyEvent e) acc from rfl,
        lookupA_upsert, if_neg h]
      rw [List.filter_cons_of_neg (by simpa using h)]

theorem applyAll_reviews (es : List Event) (en : DateEntry) :
    (applyAll es en).reviews = en.reviews ++ es.filterMap revLabel := by
  induction es generalizing en with
  | nil => simp [applyAll]
  | cons e rest ih =>
    rw [show applyAll (e :: rest) en = applyAll rest (applyEvent e en) from rfl, ih]
    cases h : e.kind with
    | learn => simp [applyEvent, revLabel, h]
    | review n => simp [applyEvent, revLabel, h]

theorem lastOr_cons (nm : String) (l : List String) (o : Option String) :
    lastOr (nm :: l) o = lastOr l (some nm) := by
  cases l with
  | nil => simp [lastOr]
  | cons x xs =>
    cases h : (x :: xs).getLast? with
    | some nm2 => simp [lastOr, List.getLast?_cons_cons, h]
    | none => exact absurd h (by simp)

theorem applyAll_newWords (es : List Event) (en : DateEntry) :
    (applyAll es en).newWords = lastOr (es.filterMap learnName) en.newWords := by
  induction es generalizing en with
  | nil => simp [applyAll, lastOr]
  | cons e rest ih =>
    rw [show applyAll (e :: rest) en = applyAll rest (applyEvent e en) from rfl, ih]
    cases h : e.kind with
    | learn => simp [applyEvent, learnName, h, lastOr_cons]
    | review n => simp [applyEvent, learnName, h]

theorem filter_flatMap_dist {α β : Type} (l : List α) (g : α → List β)
    (p : β → Bool) :
    (l.flatMap g).filter p = l.flatMap fun x => (g x).filter p := by
  induction l with
  | nil => rfl
  | cons x xs ih => simp [List.flatMap_cons, List.filter_append, ih]

theorem filterMap_flatMap_dist {α β γ : Type} (l : List α) (g : α → List β)
    (f : β → Option γ) :
    (l.flatMap g).filterMap f = l.flatMap fun x => (g x).filterMap f := by
  induction l with
  | nil => rfl
  | cons x xs ih => simp [List.flatMap_cons, List.filterMap_append, ih]

theorem reviews_filterMap_learnName (st : Set) (p : Event → Bool) :
    (st.get_review_events.filter p).filterMap learnName = [] := by
  have h0 : st.get_review_events.filterMap learnName = [] := rfl
  have hsub := (List.filter_sublist (p := p) st.get_review_events).filterMap learnName
  rw [h0, List.sublist_nil] at hsub
  exact hsub

theorem set_filterMap_learnName (st : Set) (d : Int) :
    ((st.get_all_events.filter (fun e => e.date.day == d)).filterMap learnName) =
      if st.learn_date.day = d then [st.name] else [] := by
  rw [show st.get_all_events = st.get_learning_event :: st.get_review_events from rfl]
  by_cases h : st.learn_date.day = d
  · rw [List.filter_cons_of_pos (by simpa [Set.get_learning_event] using h)]
    simp [List.filterMap_cons, learnName, Set.get_learning_event,
      reviews_filterMap_learnName, h]
  · rw [List.filter_cons_of_neg (by simpa [Set.get_learning_event] using h)]
    simp [reviews_filterMap_learnName, h]

theorem flatMap_if_singleton {α β : Type} (l : List α) (q : α → Bool)
    (f : α → β) :
    (l.flatMap fun x => if q x then [f x] else []) = (l.filter q).map f := by
  induction l with
  | nil => rfl
  | cons x xs ih =>
    by_cases h : q x <;> simp [List.flatMap_cons, h, ih, List.filter_cons]

theorem allEvents_learnNames (s : G5Schedule) (d : Int) :
    ((s.allEvents.filter (fun e => e.date.day == d)).filterMap learnName) =
      (s.sets.filter (fun st => st.learn_date.day == d)).map Set.name := by
  rw [G5Schedule.allEvents, filter_flatMap_dist, filterMap_flatMap_dist,
    ← flatMap_if_singleton s.sets (fun st => st.learn_date.day == d) Set.name]
  refine List.flatMap_congr ?_
  intro st _
  rw [set_filterMap_learnName]
  by_cases h : st.learn_date.day = d <;> simp [h]

theorem set_filterMap_revLabel (st : Set) (d : Int) :
    ((st.get_all_events.filter (fun e => e.date.day == d)).filterMap revLabel) =
      (st.get_review_events.filter (fun e => e.date.day == d)).filterMap revLabel := by
  rw [show st.get_all_events = st.get_learning_event :: st.get_review_events from rfl]
  by_cases h : st.learn_date.day = d
  · rw [List.filter_cons_of_pos (by simpa [Set.get_learning_event] using h)]
    simp [List.filterMap_cons, revLabel, Set.get_learning_event]
  · rw [List.filter_cons_of_neg (by simpa [Set.get_learning_event] using h)]

theorem allEvents_revLabels (s : G5Schedule) (d : Int) :
    ((s.allEvents.filter (fun e => e.date.day == d)).filterMap revLabel) =
      reviewLabelsOn s d := by
  rw [G5Schedule.allEvents, filter_flatMap_dist, filterMap_flatMap_dist,
    reviewLabelsOn]
  exact List.flatMap_congr fun st _ => set_filterMap_revLabel st d

theorem insertByKey_perm (p : Int × DateEntry) (l : List (Int × DateEntry)) :
    (insertByKey p l).Perm (p :: l) := by
  induction l with
  | nil => exact List.Perm.refl _
  | cons q rest ih =>
    by_cases h : p.1 ≤ q.1
    · simp [insertByKey, h]
    · rw [insertByKey, if_neg h]
      exact (ih.cons q).trans (List.Perm.swap p q rest)

theorem sortByKey_perm (l : List (Int × DateEntry)) :
    (sortByKey l).Perm l := by
  induction l with
  | nil => exact List.Perm.refl _
  | cons p rest ih =>
    exact (insertByKey_perm p (sortByKey rest)).trans (ih.cons p)

theorem insertByKey_sorted (p : Int × DateEntry) (l : List (Int × DateEntry))
    (h : l.Pairwise fun a b => a.1 ≤ b.1) :
    (insertByKey p l).Pairwise fun a b => a.1 ≤ b.1 := by
  induction l with
  | nil => simp [insertByKey]
  | cons q rest ih =>
    rw [List.pairwise_cons] at h
    by_cases hle : p.1 ≤ q.1
    · rw [insertByKey, if_pos hle, List.pairwise_cons]
      refine ⟨?_, List.pairwise_cons.mpr h⟩
      intro x hx
      rcases List.mem_cons.mp hx with rfl | hx
      · exact hle
      · exact le_trans hle (h.1 x hx)
    · rw [insertByKey, if_neg hle, List.pairwise_cons]
      refine ⟨?_, ih h.2⟩
      intro x hx
      rcases List.mem_cons.mp ((insertByKey_perm p rest).mem_iff.mp hx) with rfl | hx2
      · exact le_of_not_le hle
      · exact h.1 x hx2

theorem sortByKey_sorted (l : List (Int × DateEntry)) :
    (sortByKey l).Pairwise fun a b => a.1 ≤ b.1 := by
  induction l with
  | nil => simp [sortByKey]
  | cons p rest ih => exact insertByKey_sorted p _ ih

theorem upsert_keys (k : Int) (f : DateEntry → DateEntry)
    (l : List (Int × DateEntry)) :
    (upsert k f l).map Prod.fst =
      if k ∈ l.map Prod.fst then l.map Prod.fst
      else l.map Prod.fst ++ [k] := by
  induction l with
  | nil => simp [upsert]
  | cons p rest ih =>
    by_cases h : p.1 = k
    · obtain ⟨k', v⟩ := p
      simp only at h
      subst h
      simp [upsert]
    · obtain ⟨k', v⟩ := p
      simp only at h
      rw [show upsert k f ((k', v) :: rest) = (k', v) :: upsert k f rest
          from by simp [upsert, h]]
      by_cases hm : k ∈ rest.map Prod.fst
      · simp [ih, hm, Ne.symm h]
      · simp [ih, hm, Ne.symm h]

theorem foldl_keys_nodup (evts : List Event) (acc : List (Int × DateEntry))
    (h : (acc.map Prod.fst).Nodup) :
    ((evts.foldl ebdStep acc).map Prod.fst).Nodup := by
  induction evts generalizing acc with
  | nil => exact h
  | cons e rest ih =>
    rw [List.foldl_cons]
    refine ih _ ?_
    rw [show ebdStep acc e = upsert e.date.day (applyEvent e) acc from rfl,
      upsert_keys]
    by_cases hm : e.date.day ∈ acc.map Prod.fst
    · simpa [hm] using h
    · rw [if_neg hm, List.nodup_append]
      refine ⟨h, List.nodup_singleton _, ?_⟩
      intro a ha hb
      rw [List.mem_singleton] at hb
      subst hb
      exact hm ha

theorem geb_keys_nodup (s : G5Schedule) :
    ((s.get_events_by_date).map Prod.fst).Nodup :=
  foldl_keys_nodup _ [] (by simp)

theorem lookupA_eq_none_iff (d : Int) (l : List (Int × DateEntry)) :
    lookupA d l = none ↔ d ∉ l.map Prod.fst := by
  induction l with
  | nil => simp [lookupA]
  | cons p rest ih =>
    obtain ⟨k, v⟩ := p
    by_cases h : k = d
    · subst h
      simp [lookupA]
    · simp [lookupA, h, ih, Ne.symm h]

theorem lookupA_of_mem_nodup (d : Int) (en : DateEntry)
    (l : List (Int × DateEntry)) (hm : (d, en) ∈ l)
    (hnd : (l.map Prod.fst).Nodup) :
    lookupA d l = some en := by
  induction l with
  | nil => cases hm
  | cons p rest ih =>
    obtain ⟨k, v⟩ := p
    rw [List.map_cons, List.nodup_cons] at hnd
    rcases List.mem_cons.mp hm with heq | hm'
    · cases heq
      simp [lookupA]
    · have hkd : k ≠ d := by
        intro h
        subst h
        exact hnd.1 (List.mem_map.mpr ⟨(k, en), hm', rfl⟩)
      simp [lookupA, hkd, ih hm' hnd.2]

theorem lastOr_none (l : List String) : lastOr l none = l.getLast? := by
  unfold lastOr
  cases l.getLast? <;> rfl

theorem lookupA_geb (s : G5Schedule) (d : Int) :
    lookupA d s.get_events_by_date =
      mergeOpt none (s.allEvents.filter (fun e => e.date.day == d)) :=
  lookupA_foldl s.allEvents [] d

theorem daysBetween_mono (d1 d2 : Int) (b : DateTime) (h : d1 ≤ d2) :
    daysBetween ⟨d1, 0⟩ b ≤ daysBetween ⟨d2, 0⟩ b := by
  unfold daysBetween DateTime.totalSec
  rw [Int.fdiv_eq_ediv _ (by norm_num), Int.fdiv_eq_ediv _ (by norm_num)]
  exact Int.ediv_le_ediv (by norm_num) (by simp; omega)

theorem listContains_of_isPrefixOf (sub l : List Char)
    (h : sub.isPrefixOf l = true) : listContains sub l = true := by
  cases l with
  | nil =>
    cases sub with
    | nil => rfl
    | cons c cs => simp [List.isPrefixOf] at h
  | cons c rest => simp [listContains, h]

theorem listContains_append_right (sub l1 l2 : List Char)
    (h : listContains sub l2 = true) : listContains sub (l1 ++ l2) = true := by
  induction l1 with
  | nil => simpa using h
  | cons c cs ih => simp [listContains, ih]

theorem listContains_self (l : List Char) : listContains l l = true :=
  listContains_of_isPrefixOf l l
    (List.isPrefixOf_iff_prefix.mpr (List.prefix_refl l))

theorem strContains_learn (n : String) :
    strContains ("Learn " ++ n) "Learn" = true := by
  unfold strContains
  have hsplit : ("Learn " ++ n).toList = "Learn".toList ++ (' ' :: n.toList) := by
    show ("Learn " ++ n).data = "Learn".data ++ (' ' :: n.data)
    rw [String.data_append]
    rfl
  rw [hsplit]
  exact listContains_of_isPrefixOf _ _
    (List.isPrefixOf_iff_prefix.mpr (List.prefix_append _ _))

theorem strContains_review (nm : String) (k : Nat) :
    strContains ("Review " ++ reviewText nm k)
      ("(R" ++ toString k ++ ")") = true := by
  unfold strContains
  have hsplit : ("Review " ++ reviewText nm k).toList =
      ("Review ".toList ++ nm.toList ++ [' ']) ++
        ("(R" ++ toString k ++ ")").toList := by
    show ("Review " ++ reviewText nm k).data =
      ("Review ".data ++ nm.data ++ [' ']) ++ ("(R" ++ toString k ++ ")").data
    simp only [reviewText, String.data_append, List.append_assoc]
    rfl
  rw [hsplit]
  exact listContains_append_right _ _ _ (listContains_self _)

theorem buildEvent_basic (a : Activity) (u : Nat) :
    (buildEvent a u).dtstart = a.date ∧ (buildEvent a u).dtend = a.date + 1 ∧
      (buildEvent a u).uid = u ∧
      (buildEvent a u).description = "G5 Spaced Repetition - " ++ a.action := by
  unfold buildEvent
  split_ifs <;> exact ⟨rfl, rfl, rfl, rfl⟩

theorem buildEvent_glyph (a : Activity) (u : Nat)
    (h : (strContains a.action "Learn" || strContains a.action "(R1)" ||
        strContains a.action "(R2)" || strContains a.action "(R3)" ||
        strContains a.action "(R4)") = true) :
    ∃ g ∈ glyphs,
      (buildEvent a u).summaries = [a.action, g ++ " " ++ a.action] := by
  unfold buildEvent
  split_ifs with h1 h2 h3 h4 h5
  · exact ⟨"📚", by simp [glyphs], rfl⟩
  · exact ⟨"🔍", by simp [glyphs], rfl⟩
  · exact ⟨"🔄", by simp [glyphs], rfl⟩
  · exact ⟨"📝", by simp [glyphs], rfl⟩
  · exact ⟨"✅", by simp [glyphs], rfl⟩
  · simp [h1, h2, h3, h4, h5] at h

theorem activity_list_eq (s : G5Schedule) :
    s.get_activity_list = s.sets.flatMap fun st =>
      [⟨st.learn_date.day, "Learn " ++ st.name⟩,
       ⟨(st.learn_date.addDays 1).day, "Review " ++ reviewText st.name 1⟩,
       ⟨(st.learn_date.addDays 3).day, "Review " ++ reviewText st.name 2⟩,
       ⟨(st.learn_date.addDays 7).day, "Review " ++ reviewText st.name 3⟩,
       ⟨(st.learn_date.addDays 14).day, "Review " ++ reviewText st.name 4⟩] :=
  rfl

theorem acts_action_matches (s : G5Schedule) :
    ∀ a ∈ s.get_activity_list,
      (strContains a.action "Learn" || strContains a.action "(R1)" ||
        strContains a.action "(R2)" || strContains a.action "(R3)" ||
        strContains a.action "(R4)") = true := by
  intro a ha
  rw [activity_list_eq] at ha
  obtain ⟨st, _, hmem⟩ := List.mem_flatMap.mp ha
  have hR1 : strContains ("Review " ++ reviewText st.name 1) "(R1)" = true :=
    strContains_review st.name 1
  have hR2 : strContains ("Review " ++ reviewText st.name 2) "(R2)" = true :=
    strContains_review st.name 2
  have hR3 : strContains ("Review " ++ reviewText st.name 3) "(R3)" = true :=
    strContains_review st.name 3
  have hR4 : strContains ("Review " ++ reviewText st.name 4) "(R4)" = true :=
    strContains_review st.name 4
  simp only [List.mem_cons, List.mem_singleton] at hmem
  rcases hmem with rfl | rfl | rfl | rfl | rfl | h
  · simp [strContains_learn st.name]
  · simp [hR1]
  · simp [hR2]
  · simp [hR3]
  · simp [hR4]
  · cases h

/-- C1: for every set, `get_review_events` returns exactly 4 events,
at `learn_date` + 1, + 3, + 7, + 14 days (offsets 2, 4, 8, 15 minus 1),
numbered R1..R4 in that order, with strictly increasing dates. -/
theorem claim_c1_review_events (s : Set) :
    s.get_review_events =
      [⟨s.learn_date.addDays 1, s.name, .review 1⟩,
       ⟨s.learn_date.addDays 3, s.name, .review 2⟩,
       ⟨s.learn_date.addDays 7, s.name, .review 3⟩,
       ⟨s.learn_date.addDays 14, s.name, .review 4⟩] ∧
    s.get_review_events.length = 4 ∧
    s.get_review_events.Pairwise fun a b => a.date.day < b.date.day := by
  refine ⟨rfl, rfl, ?_⟩
  rw [show s.get_review_events =
      [⟨s.learn_date.addDays 1, s.name, .review 1⟩,
       ⟨s.learn_date.addDays 3, s.name, .review 2⟩,
       ⟨s.learn_date.addDays 7, s.name, .review 3⟩,
       ⟨s.learn_date.addDays 14, s.name, .review 4⟩] from rfl]
  simp [List.pairwise_cons, DateTime.addDays]

/-- C2: `add_new_sets n k` with `n ≥ 1`, `k ≥ 1` appends exactly `n`
sets; the start date and the previously present sets are unchanged, and
the `i`-th appended set has learn date `start_date + i` days and name
`"Set "` followed by `k + i` zero-padded to width 2. -/
theorem claim_c2_add_new_sets (s : G5Schedule) (n k : Int)
    (hn : 1 ≤ n) (_hk : 1 ≤ k) :
    (s.add_new_sets n k).start_date = s.start_date ∧
    ((s.add_new_sets n k).sets.length : Int) = (s.sets.length : Int) + n ∧
    (s.add_new_sets n k).sets.take s.sets.length = s.sets ∧
    ∀ i : Nat, i < n.toNat →
      (s.add_new_sets n k).sets[s.sets.length + i]? =
        some ⟨"Set " ++ pad2 (k + (i : Int)), s.start_date.addDays (i : Int)⟩ := by
  refine ⟨rfl, ?_, ?_, ?_⟩
  · simp only [G5Schedule.add_new_sets, List.length_append, List.length_map,
      List.length_range]
    push_cast
    rw [Int.toNat_of_nonneg (by omega)]
  · simp only [G5Schedule.add_new_sets]
    exact List.take_left s.sets _
  · intro i hi
    simp only [G5Schedule.add_new_sets]
    rw [List.getElem?_append_right (by omega)]
    have hidx : s.sets.length + i - s.sets.length = i := by omega
    rw [hidx, List.getElem?_map, List.getElem?_range hi]
    rfl

/-- C5: for a set whose learn date has no sub-day component (as holds for
every set the schedule constructs), `from_dict (to_dict s)` reproduces
the same name and the same learn date: the `"YYYY-MM-DD"` formatting
loses nothing. -/
theorem claim_c5_round_trip (s : Set) (h : s.learn_date.sec = 0) :
    Set.from_dict (Set.to_dict s) = s := by
  obtain ⟨nm, d, sec⟩ := s
  simp only at h
  subst h
  rfl

/-- C6: the flat activity list used both for the JSON `full_schedule`
field and for calendar export is ordered by set and, within each set,
learning first then R1..R4; it is not sorted by date (witnessed by the
two-set example schedule). -/
theorem claim_c6_activity_order :
    (∀ s : G5Schedule,
      s.get_activity_list = (s.sets.flatMap fun st =>
        [⟨st.learn_date.day, "Learn " ++ st.name⟩,
         ⟨(st.learn_date.addDays 1).day, "Review " ++ reviewText st.name 1⟩,
         ⟨(st.learn_date.addDays 3).day, "Review " ++ reviewText st.name 2⟩,
         ⟨(st.learn_date.addDays 7).day, "Review " ++ reviewText st.name 3⟩,
         ⟨(st.learn_date.addDays 14).day, "Review " ++ reviewText st.name 4⟩]) ∧
      (s.to_dict).full_schedule = s.get_activity_list) ∧
    ¬ ((exSched.get_activity_list.map Activity.date).Pairwise (· ≤ ·)) := by
  refine ⟨fun s => ⟨activity_list_eq s, rfl⟩, ?_⟩
  decide

/-- C9: `export_to_ical` reports success as a boolean and never
propagates an exception: it returns `false` when the icalendar library is
unavailable or the file write fails, returns `true` exactly when the
calendar file was written, and on success the written file holds the
exported events. -/
theorem claim_c9_export_boolean (lib wOk : Bool) (acts : List Activity) :
    export_to_ical lib wOk acts =
      (lib && wOk, if lib && wOk then some (exportEvents acts) else none) := by
  cases lib <;> cases wOk <;> rfl

/-- C10: `add_new_sets` with a non-positive count raises no error and
leaves the schedule exactly unchanged; the `count ≥ 1` precondition is
enforced only by the CLI layer. -/
theorem claim_c10_nonpositive_count (s : G5Schedule) (n k : Int)
    (h : n ≤ 0) : s.add_new_sets n k = s := by
  obtain ⟨sd, sets⟩ := s
  simp [G5Schedule.add_new_sets, Int.toNat_of_nonpos h]

/-- C3: in `get_events_by_date`, the `"New Words"` entry of each present
date is the name of the last set in set-list order whose learning event
falls on that date (a later learning event silently overwrites an
earlier one), while the `"Reviews"` entry accumulates every review label
`"SetName (Rk)"` of that date without overwriting, in set-processing
then offset order. -/
theorem claim_c3_events_by_date (s : G5Schedule) (d : Int) (en : DateEntry)
    (h : lookupA d s.get_events_by_date = some en) :
    en.newWords =
      ((s.sets.filter fun st => st.learn_date.day == d).map Set.name).getLast? ∧
    en.reviews = reviewLabelsOn s d := by
  rw [lookupA_geb] at h
  by_cases he : (s.allEvents.filter fun e => e.date.day == d).isEmpty
  · rw [mergeOpt, if_pos he] at h
    cases h
  · rw [mergeOpt, if_neg he] at h
    have hen : en = applyAll (s.allEvents.filter fun e => e.date.day == d)
        DateEntry.empty := (Option.some.inj h).symm
    constructor
    · rw [hen, applyAll_newWords,
        show DateEntry.empty.newWords = none from rfl, lastOr_none,
        allEvents_learnNames]
    · rw [hen, applyAll_reviews,
        show DateEntry.empty.reviews = [] from rfl, List.nil_append,
        allEvents_revLabels]

/-- C7: `generate_g5_schedule` with `new_sets ≤ 0` or `set_number < 1`
is rejected with an error before any file is written: the file system
state (JSON data file and calendar file) is exactly as before and the
result is an error. -/
theorem claim_c7_validation_before_write (fs : FS) (parsed : Option DateTime)
    (ns sn : Int) (h : ns ≤ 0 ∨ sn < 1) :
    (generate_g5_schedule fs parsed ns sn).1 = fs ∧
    ∃ err, (generate_g5_schedule fs parsed ns sn).2 = .error err := by
  cases parsed with
  | none => exact ⟨rfl, .invalidDateFormat, rfl⟩
  | some d =>
    by_cases h1 : ns ≤ 0
    · exact ⟨by simp [generate_g5_schedule, h1], .invalidCount,
        by simp [generate_g5_schedule, h1]⟩
    · have h2 : sn < 1 := h.resolve_left h1
      exact ⟨by simp [generate_g5_schedule, h1, h2], .invalidSetNumber,
        by simp [generate_g5_schedule, h1, h2]⟩

/-- C8: for the flat activity list of any schedule, the calendar exporter
produces exactly one all-day event per activity (end = start + 1 day),
with pairwise-distinct freshly generated identifiers, and each event's
summary carries the action text prefixed with exactly one category glyph
chosen by substring matching on the action (`"Learn"` versus `"(R1)"`
through `"(R4)"`). -/
theorem claim_c8_calendar_export (s : G5Schedule) :
    (exportEvents s.get_activity_list).length = s.get_activity_list.length ∧
    ((exportEvents s.get_activity_list).map ICalEvent.uid).Nodup ∧
    ∀ (i : Nat) (a : Activity) (ev : ICalEvent),
      s.get_activity_list[i]? = some a →
      (exportEvents s.get_activity_list)[i]? = some ev →
      ev.dtstart = a.date ∧ ev.dtend = a.date + 1 ∧ ev.uid = i ∧
        ∃ g ∈ glyphs, ev.summaries = [a.action, g ++ " " ++ a.action] := by
  refine ⟨by simp [exportEvents], ?_, ?_⟩
  · have huid : (exportEvents s.get_activity_list).map ICalEvent.uid =
        s.get_activity_list.enum.map Prod.fst := by
      rw [exportEvents, List.map_map]
      exact List.map_congr_left fun p _ => (buildEvent_basic p.2 p.1).2.2.1
    rw [huid, List.enum_map_fst]
    exact List.nodup_range _
  · intro i a ev ha hev
    rw [exportEvents, List.getElem?_map, List.getElem?_enum, ha] at hev
    have hev' : ev = buildEvent a i := (Option.some.inj hev).symm
    subst hev'
    obtain ⟨h1, h2, h3, _⟩ := buildEvent_basic a i
    refine ⟨h1, h2, h3, ?_⟩
    exact buildEvent_glyph a i
      (acts_action_matches s a (List.getElem?_mem ha))

/-- C4: `to_dataframe` produces exactly one row per distinct event date
(strictly increasing dates, one row for each day touched by some event),
each row's day number is `(date - start_date in days) + 1 + day_offset`,
day numbers are monotonically non-decreasing down the table, and the
cells show the date's new-words set name or `"-"` and its comma-joined
review labels or `"-"`. -/
theorem claim_c4_dataframe (s : G5Schedule) (off : Int) :
    ((s.to_dataframe off).map Row.date).Pairwise (· < ·) ∧
    (∀ d : Int, d ∈ (s.to_dataframe off).map Row.date ↔
      ∃ e ∈ s.allEvents, e.date.day = d) ∧
    (∀ r ∈ s.to_dataframe off,
      r.dayNumber = daysBetween ⟨r.date, 0⟩ s.start_date + 1 + off) ∧
    ((s.to_dataframe off).map Row.dayNumber).Pairwise (· ≤ ·) ∧
    (∀ r ∈ s.to_dataframe off,
      ∃ en, lookupA r.date s.get_events_by_date = some en ∧
        r.newWords = newWordsCell en.newWords ∧
        r.reviews = reviewsCell en.reviews) := by
  have hperm : (sortByKey s.get_events_by_date).Perm s.get_events_by_date :=
    sortByKey_perm _
  have hnd : (s.get_events_by_date.map Prod.fst).Nodup := geb_keys_nodup s
  have hndL : ((sortByKey s.get_events_by_date).map Prod.fst).Nodup :=
    ((hperm.map Prod.fst).nodup_iff).mpr hnd
  have hkeys_le : ((sortByKey s.get_events_by_date).map Prod.fst).Pairwise
      (· ≤ ·) := List.pairwise_map.mpr (sortByKey_sorted _)
  have hkeys_lt : ((sortByKey s.get_events_by_date).map Prod.fst).Pairwise
      (· < ·) :=
    (hkeys_le.and hndL).imp fun hab => lt_of_le_of_ne hab.1 hab.2
  have hdates : (s.to_dataframe off).map Row.date =
      (sortByKey s.get_events_by_date).map Prod.fst := by
    rw [G5Schedule.to_dataframe, List.map_map]
    rfl
  refine ⟨?_, ?_, ?_, ?_, ?_⟩
  · rw [hdates]
    exact hkeys_lt
  · intro d
    rw [hdates, (hperm.map Prod.fst).mem_iff]
    have h1 := lookupA_eq_none_iff d s.get_events_by_date
    rw [lookupA_geb] at h1
    constructor
    · intro hd
      by_cases he : (s.allEvents.filter fun e => e.date.day == d).isEmpty
      · exact absurd (h1.mp (by rw [mergeOpt, if_pos he])) (not_not.mpr hd)
      · rw [List.isEmpty_iff, List.filter_eq_nil_iff] at he
        push_neg at he
        obtain ⟨e, hmem, hpe⟩ := he
        exact ⟨e, hmem, by simpa using hpe⟩
    · intro ⟨e, hmem, hde⟩
      by_contra hd
      have hnone := h1.mpr hd
      rw [mergeOpt] at hnone
      by_cases he : (s.allEvents.filter fun e => e.date.day == d).isEmpty
      · rw [List.isEmpty_iff, List.filter_eq_nil_iff] at he
        exact he e hmem (by simpa using hde)
      · rw [if_neg he] at hnone
        cases hnone
  · intro r hr
    rw [G5Schedule.to_dataframe] at hr
    obtain ⟨p, _, rfl⟩ := List.mem_map.mp hr
    rfl
  · have hnums : (s.to_dataframe off).map Row.dayNumber =
        ((sortByKey s.get_events_by_date).map Prod.fst).map
          (fun d => daysBetween ⟨d, 0⟩ s.start_date + 1 + off) := by
      rw [G5Schedule.to_dataframe, List.map_map, List.map_map]
      rfl
    rw [hnums]
    refine List.Pairwise.map _ ?_ hkeys_lt
    intro a b hab
    exact add_le_add_right
      (add_le_add_right (daysBetween_mono a b s.start_date (le_of_lt hab)) 1) off
  · intro r hr
    rw [G5Schedule.to_dataframe] at hr
    obtain ⟨p, hpL, rfl⟩ := List.mem_map.mp hr
    obtain ⟨k, en⟩ := p
    exact ⟨en, lookupA_of_mem_nodup k en _ (hperm.subset hpL) hnd, rfl, rfl⟩

/-- Witness for C2 at the empty schedule, two sets, starting number 1:
the second appended set is `"Set 02"` learned one day after the start. -/
theorem claim_c2_witness :
    (1 : Int) ≤ 2 ∧ (1 : Int) ≤ 1 ∧
    ((G5Schedule.mk ⟨0, 0⟩ []).add_new_sets 2 1).sets[0 + 1]? =
      some ⟨"Set " ++ pad2 (1 + ((1 : Nat) : Int)),
        DateTime.addDays ⟨0, 0⟩ ((1 : Nat) : Int)⟩ :=
  ⟨by norm_num, by norm_num,
    (claim_c2_add_new_sets (G5Schedule.mk ⟨0, 0⟩ []) 2 1 (by norm_num)
      (by norm_num)).2.2.2 1 (by decide)⟩

/-- Witness for C3 at the two-set example schedule, date 1: the second
set's learning overwrote the first set's in the new-words slot, while the
first set's R1 review label accumulated. -/
theorem claim_c3_witness :
    lookupA 1 exSched.get_events_by_date =
      some ⟨some "Set 02", ["Set 01 (R1)"]⟩ ∧
    ((⟨some "Set 02", ["Set 01 (R1)"]⟩ : DateEntry).newWords =
      ((exSched.sets.filter fun st => st.learn_date.day == 1).map
        Set.name).getLast? ∧
     (⟨some "Set 02", ["Set 01 (R1)"]⟩ : DateEntry).reviews =
      reviewLabelsOn exSched 1) :=
  ⟨rfl, claim_c3_events_by_date exSched 1 ⟨some "Set 02", ["Set 01 (R1)"]⟩ rfl⟩

/-- Witness for C4 at the two-set example schedule with zero offset: the
row of date 1 is present and its day number obeys the formula. -/
theorem claim_c4_witness :
    (⟨1, 2, "Set 02", "Set 01 (R1)"⟩ : Row) ∈ exSched.to_dataframe 0 ∧
    (⟨1, 2, "Set 02", "Set 01 (R1)"⟩ : Row).dayNumber =
      daysBetween ⟨(⟨1, 2, "Set 02", "Set 01 (R1)"⟩ : Row).date, 0⟩
        exSched.start_date + 1 + 0 :=
  ⟨by decide,
    (claim_c4_dataframe exSched 0).2.2.1 ⟨1, 2, "Set 02", "Set 01 (R1)"⟩
      (by decide)⟩

/-- Witness for C5 at a concrete midnight learn date. -/
theorem claim_c5_witness :
    DateTime.sec ⟨5, 0⟩ = 0 ∧
    Set.from_dict (Set.to_dict ⟨"Set 01", ⟨5, 0⟩⟩) =
      (⟨"Set 01", ⟨5, 0⟩⟩ : Set) :=
  ⟨rfl, claim_c5_round_trip ⟨"Set 01", ⟨5, 0⟩⟩ rfl⟩

/-- Witness for C7 at `new_sets = 0` on an empty file system: the run
errors and writes nothing. -/
theorem claim_c7_witness :
    ((0 : Int) ≤ 0 ∨ (1 : Int) < 1) ∧
    (generate_g5_schedule ⟨none, none⟩ (some ⟨0, 0⟩) 0 1).1 = ⟨none, none⟩ ∧
    ∃ err, (generate_g5_schedule ⟨none, none⟩ (some ⟨0, 0⟩) 0 1).2 =
      .error err :=
  ⟨Or.inl (by norm_num),
    claim_c7_validation_before_write ⟨none, none⟩ (some ⟨0, 0⟩) 0 1
      (Or.inl (by norm_num))⟩

/-- Witness for C8 at the two-set example schedule, first activity: the
learning event spans day 0 to day 1 with uid 0 and a book glyph. -/
theorem claim_c8_witness :
    exSched.get_activity_list[0]? = some ⟨0, "Learn Set 01"⟩ ∧
    (exportEvents exSched.get_activity_list)[0]? =
      some (buildEvent ⟨0, "Learn Set 01"⟩ 0) ∧
    ((buildEvent ⟨0, "Learn Set 01"⟩ 0).dtstart =
        (⟨0, "Learn Set 01"⟩ : Activity).date ∧
      (buildEvent ⟨0, "Learn Set 01"⟩ 0).dtend =
        (⟨0, "Learn Set 01"⟩ : Activity).date + 1 ∧
      (buildEvent ⟨0, "Learn Set 01"⟩ 0).uid = 0 ∧
      ∃ g ∈ glyphs, (buildEvent ⟨0, "Learn Set 01"⟩ 0).summaries =
        [(⟨0, "Learn Set 01"⟩ : Activity).action,
          g ++ " " ++ (⟨0, "Learn Set 01"⟩ : Activity).action]) :=
  ⟨rfl, rfl,
    (claim_c8_calendar_export exSched).2.2 0 ⟨0, "Learn Set 01"⟩
      (buildEvent ⟨0, "Learn Set 01"⟩ 0) rfl rfl⟩

/-- Witness for C10 at count 0 on a one-set schedule. -/
theorem claim_c10_witness :
    (0 : Int) ≤ 0 ∧
    (G5Schedule.mk ⟨0, 0⟩ [⟨"X", ⟨0, 0⟩⟩]).add_new_sets 0 5 =
      G5Schedule.mk ⟨0, 0⟩ [⟨"X", ⟨0, 0⟩⟩] :=
  ⟨le_refl 0,
    claim_c10_nonpositive_count (G5Schedule.mk ⟨0, 0⟩ [⟨"X", ⟨0, 0⟩⟩]) 0 5
      (le_refl 0)⟩

end G5

